import Mathlib

/-!
Shallow embedding of the cross-frame persistent-state core of the `emigui`
repository:

* `egui/src/containers/scroll_area.rs` — the scrollable-region controller
  (`State`, `Prepared::end`): kinetic scrolling, wheel scrolling, scroll-target
  consumption, scroll-bar width forcing, and the final offset clamps.
* `egui/src/grid.rs` — the grid layout engine (`State`, `GridLayout`):
  monotone-max accumulation of column widths / row heights, cursor advance,
  conditional background painting, and the save-if-changed store write.
* `egui/src/any/` — the serializable type-erased keyed store (by instance).

Real-valued (`f32`) quantities of the scroll area are modelled over `ℝ`
(the velocity length uses a square root); the grid arithmetic is pure
max/resize bookkeeping and is modelled executably over `ℚ`.
-/

open scoped Classical

/-- Two-dimensional vector (`Vec2` in the source), modelled over the reals. -/
structure Vec2 where
  x : ℝ
  y : ℝ

/-- Modelled from the spec: `Vec2::length` lives outside `src/`; the spec uses
it as the magnitude `|velocity|` in the kinetic-friction formulae, i.e. the
Euclidean norm. -/
noncomputable def Vec2.length (v : Vec2) : ℝ :=
  Real.sqrt (v.x ^ 2 + v.y ^ 2)

/-- Modelled from the spec: `normalize(velocity)` in the friction formula —
the vector divided by its Euclidean length (only ever used at length ≥ 20). -/
noncomputable def Vec2.normalized (v : Vec2) : Vec2 :=
  ⟨v.x / v.length, v.y / v.length⟩

noncomputable def Vec2.sub (a b : Vec2) : Vec2 := ⟨a.x - b.x, a.y - b.y⟩

noncomputable def Vec2.smul (c : ℝ) (v : Vec2) : Vec2 := ⟨c * v.x, c * v.y⟩

noncomputable def Vec2.zero : Vec2 := ⟨0, 0⟩

/-- Scroll area `State` (`scroll_area.rs` lines 6-15): persisted offset, the
show-scroll flag from last frame, and the kinetic velocity. -/
structure ScrollState where
  offset : Vec2
  show_scroll : Bool
  vel : Vec2

/-- The all-zero `Default` of the scroll `State` (`scroll_area.rs` lines 17-25). -/
noncomputable def ScrollState.default : ScrollState :=
  ⟨Vec2.zero, false, Vec2.zero⟩

/-- Per-frame environment read by `Prepared::end` (`scroll_area.rs` lines
144-317): content measurement, the inner rectangle computed at `begin`, the
pending scroll target of the frame state, pointer/wheel input, timing, and the
scroll-bar bookkeeping carried in `Prepared`. -/
structure ScrollInput where
  /-- The `content_ui.min_size()` measured at the top of `end`. -/
  contentSize : Vec2
  /-- The `inner_rect.min.x` computed at `begin`. -/
  innerRectMinX : ℝ
  /-- The `inner_rect.min.y` computed at `begin`. -/
  innerRectMinY : ℝ
  /-- The `inner_rect` width computed at `begin` (before the expand-to-content). -/
  innerWidth : ℝ
  /-- The `inner_rect` height computed at `begin` (`end` never changes it). -/
  innerHeight : ℝ
  /-- The pending `frame_state().scroll_target()`. -/
  scrollTarget : Option ℝ
  /-- The `frame_state().scroll_target_center_ratio()`. -/
  scrollTargetCenterFactor : ℝ
  /-- The `content_ui.clip_rect().height()`. -/
  clipHeight : ℝ
  /-- The `content_ui.min_rect().top()`. -/
  contentTop : ℝ
  /-- Whether the drag-to-scroll `content_response` is active this frame. -/
  dragActive : Bool
  /-- The `input.mouse.delta`. -/
  mouseDelta : Vec2
  /-- The `input.mouse.velocity`. -/
  mouseVelocity : Vec2
  /-- The `input.mouse.pos`. -/
  mousePos : Option Vec2
  /-- The frame time `input.unstable_dt`. -/
  dt : ℝ
  /-- Whether `ui.contains_mouse(outer_rect)` holds. -/
  containsMouse : Bool
  /-- The `input.scroll_delta`. -/
  scrollDelta : Vec2
  /-- Whether the scroll-bar click-and-drag `response` is active this frame. -/
  sbActive : Bool
  /-- The style value `spacing.item_spacing.x`. -/
  itemSpacingX : ℝ
  /-- The `always_show_scroll` configuration of the area. -/
  alwaysShowScroll : Bool
  /-- The animated scroll-bar width computed at `begin`. -/
  currentScrollBarWidth : ℝ

/-- The width bound `max_scroll_bar_width_with_margin` (`scroll_area.rs`
lines 320-322): `item_spacing.x + 16.0`. -/
noncomputable def maxScrollBarWidthWithMargin (itemSpacingX : ℝ) : ℝ :=
  itemSpacingX + 16

/-- Modelled from the spec: the animation utility `animate_bool(id, target)`
(outside `src/`) returns an eased `0..1` factor; per the spec, forcing the
animation with target `true` at a cold start makes the scroll bar take its
maximum width immediately, i.e. the factor is `1`. -/
noncomputable def animateBoolTrue : ℝ := 1

/-- Modelled from the spec: the linear remap of `x` from one interval to
another, `remap` (outside `src/`) — used to inverse-map a pointer position
back into content space when re-centering the scroll-bar handle. -/
noncomputable def remap (x fromMin fromMax toMin toMax : ℝ) : ℝ :=
  toMin + (x - fromMin) / (fromMax - fromMin) * (toMax - toMin)

/-- Clamped linear remap on an already ordered source interval. -/
noncomputable def remapClampOrdered (x fromMin fromMax toMin toMax : ℝ) : ℝ :=
  if x ≤ fromMin then toMin
  else if fromMax ≤ x then toMax
  else remap x fromMin fromMax toMin toMax

/-- Modelled from the spec: the clamped linear remap `remap_clamp` (outside
`src/`) — maps `[0, content_height]` linearly onto the scroll-bar track,
clamping at the ends, after reorienting a reversed source interval. -/
noncomputable def remap_clamp (x fromMin fromMax toMin toMax : ℝ) : ℝ :=
  if fromMax < fromMin then remapClampOrdered x fromMax fromMin toMax toMin
  else remapClampOrdered x fromMin fromMax toMin toMax

/-- The scroll-target consumption block of `Prepared::end` (`scroll_area.rs`
lines 156-169): if a target is pending, set
`offset.y = scroll_target - content_top - clip_height * center_ratio` and
clear the frame state's target; otherwise leave both unchanged. Returns the
new state and the frame state's scroll target after the block. -/
noncomputable def stepScrollTarget (state : ScrollState) (i : ScrollInput) :
    ScrollState × Option ℝ :=
  match i.scrollTarget with
  | some scroll_target =>
      let height_offset := i.clipHeight * i.scrollTargetCenterFactor
      let top := i.contentTop
      let offset_y := scroll_target - top - height_offset
      ({ state with offset := ⟨state.offset.x, offset_y⟩ }, none)
  | none => (state, none)

/-- The kinetic-friction step of `Prepared::end` (`scroll_area.rs` lines
195-208), taken while the content is dragged-scrollable but not actively
dragged: `friction = 1000 * dt`; if `friction > |vel|` or `|vel| < 20`, the
velocity snaps to zero; otherwise `vel -= friction * normalize(vel)` and then
`offset.y -= vel.y * dt` (with the already-updated velocity), requesting a
repaint. Returns the new velocity, the new `offset.y`, and the repaint flag. -/
noncomputable def kineticStep (vel : Vec2) (offsetY dt : ℝ) : Vec2 × ℝ × Bool :=
  let stop_speed : ℝ := 20
  let friction_coeff : ℝ := 1000
  let friction := friction_coeff * dt
  if friction > vel.length ∨ vel.length < stop_speed then
    (Vec2.zero, offsetY, false)
  else
    let vel' := Vec2.sub vel (Vec2.smul friction vel.normalized)
    (vel', offsetY - vel'.y * dt, true)

/-- The drag / kinetic block of `Prepared::end` (`scroll_area.rs` lines
184-210): only entered when `content_size.y > inner_rect.height()`; while
actively dragged, `offset.y -= mouse.delta.y` and `vel = mouse.velocity`,
otherwise the kinetic-friction step runs. Returns the state and the repaint
request of this block. -/
noncomputable def stepDragKinetic (state : ScrollState) (i : ScrollInput) :
    ScrollState × Bool :=
  if i.contentSize.y > i.innerHeight then
    if i.dragActive then
      ({ state with
          offset := ⟨state.offset.x, state.offset.y - i.mouseDelta.y⟩,
          vel := i.mouseVelocity }, false)
    else
      let r := kineticStep state.vel state.offset.y i.dt
      ({ state with vel := r.1, offset := ⟨state.offset.x, r.2.1⟩ }, r.2.2)
  else (state, false)

/-- The wheel-scroll block of `Prepared::end` (`scroll_area.rs` lines
213-215): if the pointer is inside the outer rectangle, apply the wheel delta
to `offset.y` — note this block is not guarded by `content_is_too_small`. -/
noncomputable def stepWheel (state : ScrollState) (i : ScrollInput) : ScrollState :=
  if i.containsMouse then
    { state with offset := ⟨state.offset.x, state.offset.y - i.scrollDelta.y⟩ }
  else state

/-- The decision `show_scroll_this_frame = content_is_too_small ||
always_show_scroll` (`scroll_area.rs` line 217). -/
def showScrollThisFrame (i : ScrollInput) : Prop :=
  i.contentSize.y > i.innerHeight ∨ i.alwaysShowScroll = true

/-- The cold-start width forcing of `Prepared::end` (`scroll_area.rs` lines
221-224): if the bar should be shown but the animated width is still at or
below zero, replace it by `max_scroll_bar_width * animate_bool(id, true)`. -/
noncomputable def forcedScrollBarWidth (i : ScrollInput) : ℝ :=
  if showScrollThisFrame i ∧ i.currentScrollBarWidth ≤ 0 then
    maxScrollBarWidthWithMargin i.itemSpacingX * animateBoolTrue
  else i.currentScrollBarWidth

/-- The scroll-bar interaction block of `Prepared::end` (`scroll_area.rs`
lines 226-268), restricted to its effect on the state: when the (possibly
forced) width `w` is positive, a drag inside the handle scales the pointer
delta by `content_size.y / inner_rect.height()` into `offset.y`, a drag
outside the handle re-centers the handle at the pointer by inverse-mapping its
`y` back into content space, and afterwards `offset.y` is clamped by
`max 0` and then by `min (content_size.y - inner_rect.height())`. -/
noncomputable def stepScrollBar (state : ScrollState) (i : ScrollInput) (w : ℝ) :
    ScrollState :=
  if 0 < w then
    let content_size_y := i.contentSize.y
    let animation_t := w / maxScrollBarWidthWithMargin i.itemSpacingX
    let margin := animation_t * i.itemSpacingX
    let innerRight := i.innerRectMinX + max i.innerWidth i.contentSize.x
    let left := innerRight + margin
    let right := innerRight + i.currentScrollBarWidth
    let top := i.innerRectMinY
    let bottom := i.innerRectMinY + i.innerHeight
    let handleTop := remap_clamp state.offset.y 0 content_size_y top bottom
    let handleBottom :=
      remap_clamp (state.offset.y + i.innerHeight) 0 content_size_y top bottom
    let state1 :=
      if i.sbActive then
        match i.mousePos with
        | some mouse_pos =>
          if left ≤ mouse_pos.x ∧ mouse_pos.x ≤ right ∧
              handleTop ≤ mouse_pos.y ∧ mouse_pos.y ≤ handleBottom then
            if top ≤ mouse_pos.y ∧ mouse_pos.y ≤ bottom then
              { state with offset :=
                  ⟨state.offset.x,
                    state.offset.y +
                      i.mouseDelta.y * content_size_y / i.innerHeight⟩ }
            else state
          else
            let mpos_top := mouse_pos.y - (handleBottom - handleTop) / 2
            { state with offset :=
                ⟨state.offset.x, remap mpos_top top bottom 0 content_size_y⟩ }
        | none => state
      else state
    let state2 := { state1 with offset := ⟨state1.offset.x, max state1.offset.y 0⟩ }
    { state2 with offset :=
        ⟨state2.offset.x, min state2.offset.y (content_size_y - i.innerHeight)⟩ }
  else state

/-- Everything `Prepared::end` leaves behind: the state inserted into
`memory().scroll_areas`, the frame state's scroll target after the call, the
repaint request, and the final scroll-bar width of the frame. -/
structure EndResult where
  state : ScrollState
  scrollTargetAfter : Option ℝ
  repaint : Bool
  scrollBarWidth : ℝ

/-- The whole of `Prepared::end` (`scroll_area.rs` lines 144-317) as a state
transformer: scroll-target consumption, drag/kinetic input, wheel input,
cold-start width forcing, scroll-bar interaction, the show-flip repaint
request (line 308-310), the final defensive clamps (lines 312-313, `min`
before `max`), and the `show_scroll` update. -/
noncomputable def Prepared.end' (state0 : ScrollState) (i : ScrollInput) : EndResult :=
  let st1 := stepScrollTarget state0 i
  let dk := stepDragKinetic st1.1 i
  let state3 := stepWheel dk.1 i
  let w := forcedScrollBarWidth i
  let state4 := stepScrollBar state3 i w
  let repaintFlip :=
    if showScrollThisFrame i ↔ state0.show_scroll = true then false else true
  { state :=
      { offset := ⟨state4.offset.x,
          max (min state4.offset.y (i.contentSize.y - i.innerHeight)) 0⟩,
        show_scroll := if showScrollThisFrame i then true else false,
        vel := state4.vel },
    scrollTargetAfter := st1.2,
    repaint := dk.2 || repaintFlip,
    scrollBarWidth := w }

/-- Resize a list to length `n`, filling new slots with `fill`
(`Vec::resize` in `State::set_min_col_width` / `set_min_row_height`;
the grid only ever grows, `n ≥ length`). -/
def resizeWith (l : List ℚ) (n : ℕ) (fill : ℚ) : List ℚ :=
  l.take n ++ List.replicate (n - l.length) fill

/-- Grid `State` (`grid.rs` lines 4-9): per-column widths and per-row heights
remembered across frames. -/
structure GridState where
  col_widths : List ℚ
  row_heights : List ℚ
deriving DecidableEq

/-- The empty `Default` grid state. -/
def GridState.default : GridState := ⟨[], []⟩

/-- The monotone-max column-width store (`grid.rs` lines 19-23): grow the
vector to cover `col`, then keep the maximum of the stored and the new width. -/
def GridState.set_min_col_width (s : GridState) (col : ℕ) (width : ℚ) : GridState :=
  let cw := resizeWith s.col_widths (max s.col_widths.length (col + 1)) 0
  { s with col_widths := cw.set col (max (cw.getD col 0) width) }

/-- The monotone-max row-height store (`grid.rs` lines 25-29). -/
def GridState.set_min_row_height (s : GridState) (row : ℕ) (height : ℚ) : GridState :=
  let rh := resizeWith s.row_heights (max s.row_heights.length (row + 1)) 0
  { s with row_heights := rh.set row (max (rh.getD row 0) height) }

/-- The column count of a grid state (`grid.rs` lines 31-36: `dimensions().y`
is `col_widths.len()`). -/
def GridState.numCols (s : GridState) : ℕ := s.col_widths.length

/-- The stored width of one column, when recorded (`grid.rs` lines 38-40). -/
def GridState.col_width (s : GridState) (col : ℕ) : Option ℚ :=
  s.col_widths.get? col

/-- The stored height of one row, when recorded (`grid.rs` lines 42-44). -/
def GridState.row_height (s : GridState) (row : ℕ) : Option ℚ :=
  s.row_heights.get? row

/-- The total width of all columns plus inter-column spacing (`grid.rs`
lines 46-49). -/
def GridState.full_width (s : GridState) (xSpacing : ℚ) : ℚ :=
  s.col_widths.sum + ((max s.col_widths.length 1 - 1 : ℕ) : ℚ) * xSpacing

/-- The total height of all rows plus inter-row spacing (`grid.rs`
lines 51-54). -/
def GridState.full_height (s : GridState) (ySpacing : ℚ) : ℚ :=
  s.row_heights.sum + ((max s.row_heights.length 1 - 1 : ℕ) : ℚ) * ySpacing

/-- A color, `Rgba` in the source; the numeric components are irrelevant to
the claims and are carried as rationals. -/
structure Rgba where
  r : ℚ
  g : ℚ
  b : ℚ
  a : ℚ
deriving DecidableEq

/-- Either a single color or a light/dark pair (`GuiColor`, `grid.rs`
lines 59-64). -/
inductive GuiColor where
  | single : Rgba → GuiColor
  | pair : Rgba → Rgba → GuiColor
deriving DecidableEq

/-- Resolution of a `GuiColor` against `style.visuals.dark_mode`
(the repeated `match color` in the paint functions, e.g. lines 264-270). -/
def resolveColor (darkMode : Bool) : GuiColor → Rgba
  | .single c => c
  | .pair light dark => if darkMode then dark else light

/-- A row/column predicate with its color (`SinglePredicate`, lines 88-91). -/
structure SinglePredicate where
  color : GuiColor
  predicate : ℕ → Bool

/-- A cell predicate with its color (`DoublePredicate`, lines 94-97). -/
structure DoublePredicate where
  color : GuiColor
  predicate : ℕ → ℕ → Bool

/-- Conditional formatting of a grid (`ColorSpec`, `grid.rs` lines 102-112);
the `HashMap<(usize, usize), GuiColor>` of explicit overrides is carried as an
association list. -/
structure ColorSpec where
  list : List ((ℕ × ℕ) × GuiColor)
  by_row : List SinglePredicate
  by_column : List SinglePredicate
  by_cell : List DoublePredicate

/-- The empty `ColorSpec`. -/
def ColorSpec.default : ColorSpec := ⟨[], [], [], []⟩

/-- Lookup of an explicit (row, col) color override. -/
def ColorSpec.lookupOverride (cs : ColorSpec) (rc : ℕ × ℕ) : Option GuiColor :=
  (cs.list.find? fun e => e.1 = rc).map (·.2)

/-- An emitted `painter.rect_filled` command, as the rectangle corners and the
resolved color. -/
structure PaintRect where
  minX : ℚ
  minY : ℚ
  maxX : ℚ
  maxY : ℚ
  color : Rgba
deriving DecidableEq

/-- The grid layout engine (`GridLayout`, `grid.rs` lines 116-135): the
previous frame's state, the state accumulated this frame, spacing, the color
spec, the row-reset anchor, the minimum cell size (`min_cell_size`), and the
cursor indices. The `ctx`/`style` handles are reduced to the one style bit the
paint pass reads (`dark_mode`); `max_cell_size` only affects the sizing query,
which no claim touches. -/
structure GridLayout where
  prev_state : GridState
  curr_state : GridState
  spacingX : ℚ
  spacingY : ℚ
  color_spec : ColorSpec
  initialX : ℚ
  minCellW : ℚ
  minCellH : ℚ
  col : ℕ
  row : ℕ
  darkMode : Bool

/-- `GridLayout::new` (`grid.rs` lines 138-164): load the previous state from
the store (default if absent) and start the frame with an empty accumulated
state at cell (0, 0). -/
def GridLayout.new (stored : Option GridState) (spacingX spacingY : ℚ)
    (colorSpec : ColorSpec) (initialX minCellW minCellH : ℚ) (darkMode : Bool) :
    GridLayout :=
  { prev_state := stored.getD GridState.default
    curr_state := GridState.default
    spacingX := spacingX
    spacingY := spacingY
    color_spec := colorSpec
    initialX := initialX
    minCellW := minCellW
    minCellH := minCellH
    col := 0
    row := 0
    darkMode := darkMode }

/-- `GridLayout::prev_col_width` (`grid.rs` lines 168-172). -/
def GridLayout.prev_col_width (g : GridLayout) (col : ℕ) : ℚ :=
  (g.prev_state.col_width col).getD g.minCellW

/-- `GridLayout::prev_row_height` (`grid.rs` lines 173-177). -/
def GridLayout.prev_row_height (g : GridLayout) (row : ℕ) : ℚ :=
  (g.prev_state.row_height row).getD g.minCellH

/-- `GridLayout::advance` (`grid.rs` lines 228-260): record
`max(widget width, min_cell_size.x)` into the current column's monotone-max
width and likewise the height into the current row, step to the next column,
and move the cursor right by the frame width plus `spacing.x`. The
debug-expand overlay (lines 229-249) only emits diagnostic paint commands and
touches no layout state. Returns the layout and the new cursor `x`. -/
def GridLayout.advance (g : GridLayout)
    (cursorX frameWidth widgetWidth widgetHeight : ℚ) : GridLayout × ℚ :=
  let g' := { g with
    curr_state :=
      (g.curr_state.set_min_col_width g.col (max widgetWidth g.minCellW)
        ).set_min_row_height g.row (max widgetHeight g.minCellH)
    col := g.col + 1 }
  (g', cursorX + frameWidth + g.spacingX)

/-- `GridLayout::paint_row` (`grid.rs` lines 263-280): paints the background
of the coming row only when the previous frame recorded a height for it; the
rectangle spans the previous frame's full width, expanded by the source's
padding constants. -/
def GridLayout.paint_row (g : GridLayout) (minX minY : ℚ) (color : GuiColor) :
    List PaintRect :=
  let c := resolveColor g.darkMode color
  match g.prev_state.row_height g.row with
  | some height =>
      let w := g.prev_state.full_width g.spacingX
      [{ minX := minX - 2
         minY := minY
         maxX := minX + w + 2 + 1
         maxY := minY + height + (1 / 2) * g.spacingY + 3 / 2
         color := c }]
  | none => []

/-- `GridLayout::paint_column` (`grid.rs` lines 283-317): paints one column's
background over the previous frame's full height, offset by the widths of the
preceding columns. -/
def GridLayout.paint_column (g : GridLayout) (col : ℕ) (minX minY : ℚ)
    (color : GuiColor) : PaintRect :=
  let c := resolveColor g.darkMode color
  let offX := minX + (g.prev_state.col_widths.take col).sum +
      (g.spacingX + 1) * ((col : ℚ) - 1)
  let offY := minY - 1
  { minX := offX
    minY := offY
    maxX := offX + g.prev_col_width col + (1 / 2) * g.spacingX + 5
    maxY := offY + g.prev_state.full_height g.spacingY + 3
    color := c }

/-- `GridLayout::paint_cell` (`grid.rs` lines 320-351): paints one cell of the
current row using the previous frame's column width and row height. -/
def GridLayout.paint_cell (g : GridLayout) (col : ℕ) (minX minY : ℚ)
    (color : GuiColor) : PaintRect :=
  let c := resolveColor g.darkMode color
  let offX := minX + (g.prev_state.col_widths.take col).sum +
      (g.spacingX + 1) * ((col : ℚ) - 1)
  { minX := offX
    minY := minY
    maxX := offX + g.prev_col_width col + (1 / 2) * g.spacingX + 5
    maxY := minY + g.prev_row_height g.row + 3
    color := c }

/-- `GridLayout::do_paint` (`grid.rs` lines 354-383): evaluate all row
predicates for the coming row, then (only when starting row 0) all column
predicates over the previous frame's column count, then all cell predicates
and the explicit overrides for the current row over the previous frame's
column count; commands are emitted in that fixed order. -/
def GridLayout.do_paint (g : GridLayout) (minX minY : ℚ) : List PaintRect :=
  let rowCmds := g.color_spec.by_row.foldr
    (fun p acc =>
      (if p.predicate g.row then g.paint_row minX minY p.color else []) ++ acc) []
  let colCmds :=
    if g.row = 0 then
      g.color_spec.by_column.foldr
        (fun p acc =>
          ((List.range g.prev_state.numCols).foldr
            (fun col acc2 =>
              (if p.predicate col then [g.paint_column col minX minY p.color]
                else []) ++ acc2) []) ++ acc) []
    else []
  let cellCmds := (List.range g.prev_state.numCols).foldr
    (fun col acc =>
      (g.color_spec.by_cell.foldr
        (fun p acc2 =>
          (if p.predicate g.row col then [g.paint_cell col minX minY p.color]
            else []) ++ acc2) []) ++
      (match g.color_spec.lookupOverride (g.row, col) with
        | some color => [g.paint_cell col minX minY color]
        | none => []) ++ acc) []
  rowCmds ++ colCmds ++ cellCmds

/-- `GridLayout::end_row` (`grid.rs` lines 385-394): reset the cursor `x` to
the row anchor, advance `y` by the previous frame's height for the finished
row plus spacing, reset the column index, step the row index, and run the
paint pass for the upcoming row. Returns the layout, the new cursor, and the
emitted paint commands. -/
def GridLayout.end_row (g : GridLayout) (cursorY : ℚ) :
    GridLayout × ℚ × ℚ × List PaintRect :=
  let row_height := g.prev_row_height g.row
  let newY := cursorY + row_height + g.spacingY
  let g' := { g with col := 0, row := g.row + 1 }
  (g', g.initialX, newY, g'.do_paint g.initialX newY)

/-- `GridLayout::save` (`grid.rs` lines 396-404): when the accumulated state
differs from the previous frame's, replace the stored entry wholesale with the
accumulated state and request a repaint; otherwise touch neither. Takes and
returns the store entry for this grid id and the repaint flag. -/
def GridLayout.save (g : GridLayout) (stored : Option GridState)
    (repaint : Bool) : Option GridState × Bool :=
  if g.curr_state ≠ g.prev_state then (some g.curr_state, true)
  else (stored, repaint)

/-- Fill one row of cells by repeated `advance`; each cell is its measured
widget size (width, height). The cursor argument of `advance` does not feed
back into the accumulated state, so it is pinned to `0` here. -/
def fillCells (g : GridLayout) : List (ℚ × ℚ) → GridLayout
  | [] => g
  | c :: cs => fillCells (g.advance 0 0 c.1 c.2).1 cs

/-- Fill a whole grid frame: each row is filled cell by cell and closed with
`end_row`. -/
def fillRows (g : GridLayout) : List (List (ℚ × ℚ)) → GridLayout
  | [] => g
  | r :: rs => fillRows ((fillCells g r).end_row 0).1 rs

/-- One whole frame of a grid: `GridLayout::new` from the store, fill all
rows, then `GridLayout::save`. Returns the store entry and the repaint flag
after the frame. -/
def runFrame (stored : Option GridState) (rows : List (List (ℚ × ℚ)))
    (spacingX spacingY minCellW minCellH : ℚ) : Option GridState × Bool :=
  let g0 := GridLayout.new stored spacingX spacingY ColorSpec.default 0
    minCellW minCellH true
  (fillRows g0 rows).save stored false

/-- The store entry of a grid after `k` frames, starting from an empty store;
frame `k` shows the cell sizes `frames k`. -/
def storedAfter (frames : ℕ → List (List (ℚ × ℚ)))
    (spacingX spacingY minCellW minCellH : ℚ) : ℕ → Option GridState
  | 0 => none
  | k + 1 =>
      (runFrame (storedAfter frames spacingX spacingY minCellW minCellH k)
        (frames k) spacingX spacingY minCellW minCellH).1

/-- Modelled from the spec: one slot of the serializable by-instance store
(`serializable::AnyMapId`, whose implementation is not under `src/`; only the
module documentation in `any/mod.rs` is). A slot holds either a live value or
the still-serialized bytes loaded from disk, to be deserialized lazily on the
first typed access. -/
inductive StoreElement (α : Type) where
  | value : α → StoreElement α
  | serialized : List ℕ → StoreElement α
deriving DecidableEq

/-- Association-list lookup of one instance key in the by-instance store. -/
def lookupEntry {α : Type} : List (ℕ × StoreElement α) → ℕ → Option (StoreElement α)
  | [], _ => none
  | e :: es, k => if e.1 = k then some e.2 else lookupEntry es k

/-- Replacement of the slot of one instance key, keeping the rest. -/
def setEntry {α : Type} : List (ℕ × StoreElement α) → ℕ → StoreElement α →
    List (ℕ × StoreElement α)
  | [], k, v => [(k, v)]
  | e :: es, k, v => if e.1 = k then (k, v) :: es else e :: setEntry es k v

/-- Modelled from the spec: `get_or_default` of the serializable by-instance
store (`serializable::AnyMapId`, not under `src/`). Per the module docs in
`any/mod.rs` lines 30-44, deserialization errors "can be determined only when
you call `get_...` functions, they not logged and not provided to user, on
this errors value is just replaced with `or_insert()`/default value": a
missing slot is filled with the default, a live value is returned as is, and
serialized bytes are deserialized on the spot — on failure the slot silently
becomes the default. The deserializer for the stored type is passed in as
`deser`; the result is always a value of the stored type, never an error. -/
def getOrDefault {α : Type} (deser : List ℕ → Option α) (d : α)
    (m : List (ℕ × StoreElement α)) (k : ℕ) :
    α × List (ℕ × StoreElement α) :=
  match lookupEntry m k with
  | none => (d, (k, .value d) :: m)
  | some (.value v) => (v, m)
  | some (.serialized bytes) =>
      match deser bytes with
      | some v => (v, setEntry m k (.value v))
      | none => (d, setEntry m k (.value d))

/-- Resizing a list always yields the requested length. -/
theorem length_resizeWith (l : List ℚ) (n : ℕ) (fill : ℚ) :
    (resizeWith l n fill).length = n := by
  simp only [resizeWith, List.length_append, List.length_take, List.length_replicate]
  omega

/-- Growing a list with zero fill does not change any `getD _ 0` read. -/
theorem getD_resizeWith (l : List ℚ) (n i : ℕ) (h : l.length ≤ n) :
    (resizeWith l n 0).getD i 0 = l.getD i 0 := by
  unfold resizeWith
  rw [List.take_of_length_le h]
  rcases lt_or_le i l.length with hi | hi
  · simp [List.getD_eq_getElem?_getD, List.getElem?_append_left hi]
  · rw [List.getD_eq_getElem?_getD, List.getElem?_append_right hi,
      List.getD_eq_getElem?_getD, List.getElem?_eq_none hi,
      List.getElem?_replicate]
    split <;> simp

/-- The heart of the monotone-max store: resize-then-set as a pointwise read. -/
theorem getD_resize_set (l : List ℚ) (c : ℕ) (w : ℚ) (i : ℕ) :
    ((resizeWith l (max l.length (c + 1)) 0).set c
        (max ((resizeWith l (max l.length (c + 1)) 0).getD c 0) w)).getD i 0 =
      if i = c then max (l.getD c 0) w else l.getD i 0 := by
  have hlen : (resizeWith l (max l.length (c + 1)) 0).length = max l.length (c + 1) :=
    length_resizeWith l (max l.length (c + 1)) 0
  have hc : c < (resizeWith l (max l.length (c + 1)) 0).length := by
    rw [hlen]; omega
  have hD := getD_resizeWith l (max l.length (c + 1)) c (le_max_left _ _)
  by_cases hic : i = c
  · subst hic
    simp only [List.getD_eq_getElem?_getD] at hD ⊢
    simp [List.getElem?_set_self hc, hD]
  · rw [List.getD_eq_getElem?_getD,
      List.getElem?_set_ne (fun hci => hic hci.symm),
      ← List.getD_eq_getElem?_getD,
      getD_resizeWith l (max l.length (c + 1)) i (le_max_left _ _)]
    simp [hic]

/-- Pointwise description of `State::set_min_col_width`. -/
theorem set_min_col_width_getD (s : GridState) (c : ℕ) (w : ℚ) (i : ℕ) :
    (s.set_min_col_width c w).col_widths.getD i 0 =
      if i = c then max (s.col_widths.getD c 0) w else s.col_widths.getD i 0 :=
  getD_resize_set s.col_widths c w i

/-- Pointwise description of `State::set_min_row_height`. -/
theorem set_min_row_height_getD (s : GridState) (r : ℕ) (h : ℚ) (i : ℕ) :
    (s.set_min_row_height r h).row_heights.getD i 0 =
      if i = r then max (s.row_heights.getD r 0) h else s.row_heights.getD i 0 :=
  getD_resize_set s.row_heights r h i

/-- Setting a column width leaves the row heights untouched. -/
theorem set_min_col_width_row_heights (s : GridState) (c : ℕ) (w : ℚ) :
    (s.set_min_col_width c w).row_heights = s.row_heights := rfl

/-- Setting a row height leaves the column widths untouched. -/
theorem set_min_row_height_col_widths (s : GridState) (r : ℕ) (h : ℚ) :
    (s.set_min_row_height r h).col_widths = s.col_widths := rfl

/-- Pointwise effect of one `advance` on the accumulated column widths. -/
theorem advance_col_widths_getD (g : GridLayout) (cursorX fw ww wh : ℚ) (i : ℕ) :
    (g.advance cursorX fw ww wh).1.curr_state.col_widths.getD i 0 =
      if i = g.col then
        max (g.curr_state.col_widths.getD g.col 0) (max ww g.minCellW)
      else g.curr_state.col_widths.getD i 0 := by
  show ((g.curr_state.set_min_col_width g.col (max ww g.minCellW)).set_min_row_height
      g.row (max wh g.minCellH)).col_widths.getD i 0 = _
  rw [set_min_row_height_col_widths, set_min_col_width_getD]

/-- Pointwise effect of one `advance` on the accumulated row heights. -/
theorem advance_row_heights_getD (g : GridLayout) (cursorX fw ww wh : ℚ) (i : ℕ) :
    (g.advance cursorX fw ww wh).1.curr_state.row_heights.getD i 0 =
      if i = g.row then
        max (g.curr_state.row_heights.getD g.row 0) (max wh g.minCellH)
      else g.curr_state.row_heights.getD i 0 := by
  show ((g.curr_state.set_min_col_width g.col (max ww g.minCellW)).set_min_row_height
      g.row (max wh g.minCellH)).row_heights.getD i 0 = _
  rw [set_min_row_height_getD, set_min_col_width_row_heights]

/-- The concrete grid of the C3 scenario before any cell is filled:
fresh state, `min_col_width = 20`, spacing 8. -/
def gridScenarioStart : GridLayout :=
  GridLayout.new none 8 8 ColorSpec.default 0 20 20 true

/-- The C3 scenario grid after filling measured cell widths 40, 60 in row 0
and 50, 30 in row 1 (all heights 20). -/
def gridScenarioAfter : GridLayout :=
  (((((gridScenarioStart.advance 0 40 40 20).1.advance 0 60 60 20).1.end_row
      0).1.advance 0 50 50 20).1.advance 0 30 30 20).1

/-- C3: for every cell filled in a grid frame, `advance` records
`max(min_col_width, measured width)` as this frame's width for the current
column, taking the column-wise maximum over all cells of that column seen this
frame (and the same for heights by row), then moves the cursor right by the
frame width plus `spacing.x` and increments the column index; in particular,
filling measured widths 40, 60 in row 0 and 50, 30 in row 1 (each at least
`min_col_width`) accumulates `col_widths = [50, 60]`. -/
theorem advance_records_column_max (g : GridLayout)
    (cursorX frameWidth widgetWidth widgetHeight : ℚ) :
    ((g.advance cursorX frameWidth widgetWidth widgetHeight).1.curr_state.col_widths.getD
        g.col 0 =
      max (g.curr_state.col_widths.getD g.col 0) (max widgetWidth g.minCellW)) ∧
    (∀ i, i ≠ g.col →
      (g.advance cursorX frameWidth widgetWidth widgetHeight).1.curr_state.col_widths.getD
          i 0 = g.curr_state.col_widths.getD i 0) ∧
    ((g.advance cursorX frameWidth widgetWidth widgetHeight).1.curr_state.row_heights.getD
        g.row 0 =
      max (g.curr_state.row_heights.getD g.row 0) (max widgetHeight g.minCellH)) ∧
    ((g.advance cursorX frameWidth widgetWidth widgetHeight).1.col = g.col + 1) ∧
    ((g.advance cursorX frameWidth widgetWidth widgetHeight).2 =
      cursorX + frameWidth + g.spacingX) ∧
    gridScenarioAfter.curr_state.col_widths = [50, 60] := by
  refine ⟨?_, ?_, ?_, rfl, rfl, by decide⟩
  · rw [advance_col_widths_getD]; simp
  · intro i hi
    rw [advance_col_widths_getD]; simp [hi]
  · rw [advance_row_heights_getD]; simp

/-- Witness for C3 at the scenario grid: the first filled cell records
`max(40, 20) = 40` for column 0, and the full scenario accumulates `[50, 60]`. -/
theorem advance_records_column_max_witness :
    ((gridScenarioStart.advance 0 40 40 20).1.curr_state.col_widths.getD 0 0 =
      max (gridScenarioStart.curr_state.col_widths.getD 0 0) (max 40 20)) ∧
    gridScenarioAfter.curr_state.col_widths = [50, 60] :=
  ⟨(advance_records_column_max gridScenarioStart 0 40 40 20).1,
    (advance_records_column_max gridScenarioStart 0 40 40 20).2.2.2.2.2⟩

/-- C6: at grid save, iff the accumulated frame state differs from the
previous frame's state (structural equality of the full width and height
sequences, the derived `PartialEq`), the stored `GridState` is replaced
wholesale with the accumulated state and a repaint is requested; when the two
states are equal, the store entry and the repaint flag are left unchanged. -/
theorem save_replaces_iff_changed (g : GridLayout) (stored : Option GridState)
    (repaint : Bool) :
    (g.curr_state ≠ g.prev_state →
      g.save stored repaint = (some g.curr_state, true)) ∧
    (g.curr_state = g.prev_state → g.save stored repaint = (stored, repaint)) := by
  constructor <;> intro h <;> simp [GridLayout.save, h]

/-- A grid layout whose accumulated state differs from last frame's. -/
def gridSaveChanged : GridLayout :=
  { GridLayout.new none 8 8 ColorSpec.default 0 20 20 true with
      curr_state := ⟨[1], []⟩ }

/-- Witness for C6: a changed accumulated state is stored wholesale with a
repaint request. -/
theorem save_replaces_iff_changed_witness :
    gridSaveChanged.curr_state ≠ gridSaveChanged.prev_state ∧
    gridSaveChanged.save none false = (some gridSaveChanged.curr_state, true) :=
  ⟨by decide, (save_replaces_iff_changed gridSaveChanged none false).1 (by decide)⟩

/-- Filling cells never changes the previous-frame state. -/
theorem fillCells_prev (g : GridLayout) (cs : List (ℚ × ℚ)) :
    (fillCells g cs).prev_state = g.prev_state := by
  induction cs generalizing g with
  | nil => rfl
  | cons c cs ih => exact ih _

/-- Filling whole rows never changes the previous-frame state. -/
theorem fillRows_prev (g : GridLayout) (rs : List (List (ℚ × ℚ))) :
    (fillRows g rs).prev_state = g.prev_state := by
  induction rs generalizing g with
  | nil => rfl
  | cons r rs ih =>
      show (fillRows ((fillCells g r).end_row 0).1 rs).prev_state = _
      rw [ih,
        show ((fillCells g r).end_row 0).1.prev_state = (fillCells g r).prev_state from rfl,
        fillCells_prev]

/-- The store entry after one grid frame is exactly the state accumulated by
that frame — whether or not `save` wrote (when it skips the write, the
loaded previous state equals the accumulated one). -/
theorem runFrame_stored (stored : Option GridState) (rows : List (List (ℚ × ℚ)))
    (sx sy mw mh : ℚ) :
    (runFrame stored rows sx sy mw mh).1.getD GridState.default =
      (fillRows (GridLayout.new stored sx sy ColorSpec.default 0 mw mh true)
        rows).curr_state := by
  unfold runFrame GridLayout.save
  by_cases h :
      (fillRows (GridLayout.new stored sx sy ColorSpec.default 0 mw mh true)
        rows).curr_state =
      (fillRows (GridLayout.new stored sx sy ColorSpec.default 0 mw mh true)
        rows).prev_state
  · rw [if_neg (by simpa using h)]
    rw [h, fillRows_prev]
    rfl
  · rw [if_pos (by simpa using h)]
    rfl

/-- Pointwise comparison of two grid runs: same cursor column, same minimum
cell width, and pointwise-dominated accumulated column widths. -/
def CurrLe (g g' : GridLayout) : Prop :=
  g.col = g'.col ∧ g.minCellW = g'.minCellW ∧
  ∀ i, g.curr_state.col_widths.getD i 0 ≤ g'.curr_state.col_widths.getD i 0

/-- One `advance` with a no-smaller measured width preserves domination. -/
theorem CurrLe.advance {g g' : GridLayout} (h : CurrLe g g') {c c' : ℚ × ℚ}
    (hc : c.1 ≤ c'.1) :
    CurrLe (g.advance 0 0 c.1 c.2).1 (g'.advance 0 0 c'.1 c'.2).1 := by
  obtain ⟨hcol, hminW, hW⟩ := h
  refine ⟨?_, hminW, ?_⟩
  · show g.col + 1 = g'.col + 1
    rw [hcol]
  · intro i
    rw [show (g.advance 0 0 c.1 c.2).1.curr_state.col_widths.getD i 0 =
        _ from advance_col_widths_getD g 0 0 c.1 c.2 i,
      show (g'.advance 0 0 c'.1 c'.2).1.curr_state.col_widths.getD i 0 =
        _ from advance_col_widths_getD g' 0 0 c'.1 c'.2 i, ← hcol]
    by_cases hi : i = g.col
    · simp only [hi, if_pos rfl]
      exact max_le_max (hW g.col) (max_le_max hc (le_of_eq hminW))
    · simp only [if_neg hi]
      exact hW i

/-- Filling one row with pointwise no-smaller cells preserves domination. -/
theorem CurrLe.fillCells {g g' : GridLayout} (h : CurrLe g g')
    {cs cs' : List (ℚ × ℚ)}
    (hcs : List.Forall₂ (fun c c' : ℚ × ℚ => c.1 ≤ c'.1 ∧ c.2 ≤ c'.2) cs cs') :
    CurrLe (fillCells g cs) (fillCells g' cs') := by
  induction hcs generalizing g g' with
  | nil => exact h
  | cons hc _ ih => exact ih (h.advance hc.1)

/-- Ending a row preserves domination. -/
theorem CurrLe.end_row {g g' : GridLayout} (h : CurrLe g g') :
    CurrLe ((g.end_row 0).1) ((g'.end_row 0).1) :=
  ⟨rfl, h.2.1, h.2.2⟩

/-- Filling all rows with pointwise no-smaller cells preserves domination. -/
theorem CurrLe.fillRows {g g' : GridLayout} (h : CurrLe g g')
    {rs rs' : List (List (ℚ × ℚ))}
    (hrs : List.Forall₂
      (List.Forall₂ fun c c' : ℚ × ℚ => c.1 ≤ c'.1 ∧ c.2 ≤ c'.2) rs rs') :
    CurrLe (fillRows g rs) (fillRows g' rs') := by
  induction hrs generalizing g g' with
  | nil => exact h
  | cons hr _ ih => exact ih (CurrLe.end_row (h.fillCells hr))

/-- Accumulated column widths are never negative. -/
theorem fillRows_col_widths_nonneg (rs : List (List (ℚ × ℚ))) (g : GridLayout)
    (h : ∀ i, 0 ≤ g.curr_state.col_widths.getD i 0) :
    ∀ i, 0 ≤ (fillRows g rs).curr_state.col_widths.getD i 0 := by
  induction rs generalizing g with
  | nil => exact h
  | cons r rs ih =>
      refine ih _ ?_
      show ∀ i, 0 ≤ (fillCells g r).curr_state.col_widths.getD i 0
      clear ih
      induction r generalizing g with
      | nil => exact h
      | cons c cs ihc =>
          refine ihc _ ?_
          intro i
          rw [show (g.advance 0 0 c.1 c.2).1.curr_state.col_widths.getD i 0 =
              _ from advance_col_widths_getD g 0 0 c.1 c.2 i]
          by_cases hi : i = g.col
          · simp only [hi, if_pos rfl]
            exact le_trans (h g.col) (le_max_left _ _)
          · simp only [if_neg hi]
            exact h i

/-- C4: for every column index `i` and every sequence of consecutive frames of
the same grid in which no cell's measured size shrinks (pointwise, same cell
layout), the stored `col_widths[i]` is non-decreasing across frames: each
frame persists, for every index, the maximum observed for that index, and
under the no-shrink hypothesis that maximum never drops below the previous
frame's. -/
theorem col_widths_monotone_across_frames
    (frames : ℕ → List (List (ℚ × ℚ))) (sx sy mw mh : ℚ)
    (hmono : ∀ k,
      List.Forall₂ (List.Forall₂ fun c c' : ℚ × ℚ => c.1 ≤ c'.1 ∧ c.2 ≤ c'.2)
        (frames k) (frames (k + 1)))
    (i k : ℕ) :
    ((storedAfter frames sx sy mw mh k).getD GridState.default).col_widths.getD i 0 ≤
      ((storedAfter frames sx sy mw mh (k + 1)).getD
        GridState.default).col_widths.getD i 0 := by
  cases k with
  | zero =>
      rw [show storedAfter frames sx sy mw mh 1 =
          (runFrame (storedAfter frames sx sy mw mh 0) (frames 0) sx sy mw mh).1
          from rfl,
        runFrame_stored]
      rw [show storedAfter frames sx sy mw mh 0 = none from rfl]
      show ((0 : ℚ)) ≤ _
      exact fillRows_col_widths_nonneg (frames 0)
        (GridLayout.new none sx sy ColorSpec.default 0 mw mh true)
        (fun _ => le_refl 0) i
  | succ k =>
      rw [show storedAfter frames sx sy mw mh (k + 1) =
          (runFrame (storedAfter frames sx sy mw mh k) (frames k) sx sy mw mh).1
          from rfl,
        show storedAfter frames sx sy mw mh (k + 1 + 1) =
          (runFrame (storedAfter frames sx sy mw mh (k + 1)) (frames (k + 1))
            sx sy mw mh).1 from rfl,
        runFrame_stored, runFrame_stored]
      have hbase :
          CurrLe
            (GridLayout.new (storedAfter frames sx sy mw mh k) sx sy
              ColorSpec.default 0 mw mh true)
            (GridLayout.new (storedAfter frames sx sy mw mh (k + 1)) sx sy
              ColorSpec.default 0 mw mh true) :=
        ⟨rfl, rfl, fun _ => le_refl 0⟩
      exact (CurrLe.fillRows hbase (hmono k)).2.2 i

/-- A constant two-cell grid frame used to witness C4. -/
def constantFrames : ℕ → List (List (ℚ × ℚ)) := fun _ => [[(40, 20), (60, 20)]]

/-- Witness for C4 at the constant frames: the no-shrink hypothesis holds and
the stored width of column 0 is non-decreasing from frame 1 to frame 2. -/
theorem col_widths_monotone_across_frames_witness :
    (∀ k,
      List.Forall₂ (List.Forall₂ fun c c' : ℚ × ℚ => c.1 ≤ c'.1 ∧ c.2 ≤ c'.2)
        (constantFrames k) (constantFrames (k + 1))) ∧
    ((storedAfter constantFrames 8 8 20 20 1).getD
        GridState.default).col_widths.getD 0 0 ≤
      ((storedAfter constantFrames 8 8 20 20 2).getD
        GridState.default).col_widths.getD 0 0 := by
  have hm : ∀ k,
      List.Forall₂ (List.Forall₂ fun c c' : ℚ × ℚ => c.1 ≤ c'.1 ∧ c.2 ≤ c'.2)
        (constantFrames k) (constantFrames (k + 1)) :=
    fun _ =>
      List.Forall₂.cons
        (List.Forall₂.cons ⟨le_refl _, le_refl _⟩
          (List.Forall₂.cons ⟨le_refl _, le_refl _⟩ List.Forall₂.nil))
        List.Forall₂.nil
  exact ⟨hm, col_widths_monotone_across_frames constantFrames 8 8 20 20 hm 0 1⟩

/-- C10: on the first frame a given grid id is shown (empty previous-frame
state), the background paint pass paints nothing: `paint_row` is skipped
because the previous frame recorded no height for the row, and the column and
cell loops iterate over zero previous-frame columns — so striped, header-row,
column, cell and override colors only appear from the second frame onward. -/
theorem first_frame_paints_nothing (g : GridLayout) (minX minY : ℚ)
    (h : g.prev_state = GridState.default) :
    (∀ color, g.paint_row minX minY color = []) ∧ g.do_paint minX minY = [] := by
  have hrow : ∀ color, g.paint_row minX minY color = [] := by
    intro color
    unfold GridLayout.paint_row
    rw [h]
    rfl
  refine ⟨hrow, ?_⟩
  unfold GridLayout.do_paint
  rw [h]
  simp only [GridState.default, GridState.numCols, List.length_nil,
    List.range_zero, List.foldr_nil]
  have h1 : List.foldr (fun (p : SinglePredicate) acc =>
      (if p.predicate g.row then g.paint_row minX minY p.color else []) ++ acc) []
      g.color_spec.by_row = [] :=
    List.foldr_fixed'
      (fun p => by by_cases hp : p.predicate g.row <;> simp [hp, hrow]) _
  have h2 : List.foldr (fun (p : SinglePredicate) acc =>
      ([] : List PaintRect) ++ acc) [] g.color_spec.by_column = [] :=
    List.foldr_fixed' (fun p => by simp) _
  rw [h1, h2]
  simp

/-- A striped grid on its first frame: non-trivial row and cell specs, empty
previous state. -/
def stripedFirstFrame : GridLayout :=
  GridLayout.new none 8 8
    { list := [((0, 0), GuiColor.single ⟨1, 0, 0, 1⟩)]
      by_row := [{ color := GuiColor.pair ⟨0, 0, 0, 1⟩ ⟨1, 1, 1, 1⟩
                   predicate := fun row => row % 2 == 0 }]
      by_column := [{ color := GuiColor.single ⟨0, 1, 0, 1⟩
                      predicate := fun col => col == 0 }]
      by_cell := [{ color := GuiColor.single ⟨0, 0, 1, 1⟩
                    predicate := fun _ _ => true }] }
    0 20 20 true

/-- Witness for C10: the striped first-frame grid paints nothing. -/
theorem first_frame_paints_nothing_witness :
    stripedFirstFrame.prev_state = GridState.default ∧
    stripedFirstFrame.do_paint 0 0 = [] :=
  ⟨rfl, (first_frame_paints_nothing stripedFirstFrame 0 0 rfl).2⟩

/-- Replacing a slot makes the subsequent lookup of that key see the new
element. -/
theorem lookupEntry_setEntry {α : Type} (m : List (ℕ × StoreElement α)) (k : ℕ)
    (e : StoreElement α) : lookupEntry (setEntry m k e) k = some e := by
  induction m with
  | nil => simp [setEntry, lookupEntry]
  | cons a as ih =>
      by_cases h : a.1 = k
      · simp [setEntry, h, lookupEntry]
      · simp [setEntry, h, lookupEntry, ih]

/-- C9: when the persisted bytes of one entry of the serializable store fail
to deserialize, the failure is recovered locally: `get_or_default` returns the
type's default value (never an error — its return type carries a plain value
of the stored type), the slot is silently replaced by that default, and
querying the same key again still yields the default. -/
theorem corrupt_entry_degrades_to_default {α : Type}
    (deser : List ℕ → Option α) (d : α) (m : List (ℕ × StoreElement α)) (k : ℕ)
    (bytes : List ℕ) (hlook : lookupEntry m k = some (.serialized bytes))
    (hfail : deser bytes = none) :
    (getOrDefault deser d m k).1 = d ∧
    lookupEntry (getOrDefault deser d m k).2 k = some (.value d) ∧
    (getOrDefault deser d (getOrDefault deser d m k).2 k).1 = d := by
  have h2 : getOrDefault deser d m k = (d, setEntry m k (.value d)) := by
    unfold getOrDefault
    rw [hlook]
    simp [hfail]
  refine ⟨by rw [h2], ?_, ?_⟩
  · rw [h2]
    exact lookupEntry_setEntry m k _
  · rw [h2]
    show (getOrDefault deser d (setEntry m k (.value d)) k).1 = d
    unfold getOrDefault
    rw [lookupEntry_setEntry]

/-- A one-slot store holding corrupt persisted bytes under instance key 1. -/
def corruptStore : List (ℕ × StoreElement ℕ) := [(1, .serialized [0])]

/-- Witness for C9: with a deserializer that always fails and default 7, the
corrupt slot yields 7 now and on the next access. -/
theorem corrupt_entry_degrades_to_default_witness :
    lookupEntry corruptStore 1 = some (.serialized [0]) ∧
    (getOrDefault (fun _ => none) 7 corruptStore 1).1 = 7 ∧
    (getOrDefault (fun _ => none) 7
      (getOrDefault (fun _ => none) 7 corruptStore 1).2 1).1 = 7 :=
  ⟨rfl,
    (corrupt_entry_degrades_to_default (fun _ => none) 7 corruptStore 1 [0]
      rfl rfl).1,
    (corrupt_entry_degrades_to_default (fun _ => none) 7 corruptStore 1 [0]
      rfl rfl).2.2⟩

/-- The C1 scenario's starting state: zero offset, hidden bar, zero velocity. -/
noncomputable def wheelScenarioState : ScrollState := ⟨⟨0, 0⟩, false, ⟨0, 0⟩⟩

/-- The C1 scenario's frame input: content height 500, inner height 200, a
wheel event of `delta.y = 50`, pointer over the region, no drag, no target. -/
noncomputable def wheelScenarioInput : ScrollInput :=
  { contentSize := ⟨100, 500⟩
    innerRectMinX := 0
    innerRectMinY := 0
    innerWidth := 100
    innerHeight := 200
    scrollTarget := none
    scrollTargetCenterFactor := 0
    clipHeight := 200
    contentTop := 0
    dragActive := false
    mouseDelta := ⟨0, 0⟩
    mouseVelocity := ⟨0, 0⟩
    mousePos := none
    dt := 1 / 100
    containsMouse := true
    scrollDelta := ⟨0, 50⟩
    sbActive := false
    itemSpacingX := 4
    alwaysShowScroll := false
    currentScrollBarWidth := 5 }

/-- C1: for every scroll state and every frame input to `Prepared::end` —
hence for every reachable sequence of drag, wheel, kinetic and scroll-target
inputs — the persisted `offset.y` lies within
`[0, max 0 (content_height - inner_height)]`; in particular, in the wheel
scenario (content 500, inner 200, wheel `delta.y = 50` from offset 0) the
persisted `offset.y` is 0: the region cannot scroll above the top. -/
theorem offset_clamped_after_end :
    (∀ (s : ScrollState) (i : ScrollInput),
      0 ≤ (Prepared.end' s i).state.offset.y ∧
      (Prepared.end' s i).state.offset.y ≤
        max 0 (i.contentSize.y - i.innerHeight)) ∧
    (Prepared.end' wheelScenarioState wheelScenarioInput).state.offset.y = 0 := by
  constructor
  · intro s i
    have hproj : (Prepared.end' s i).state.offset.y =
        max (min (stepScrollBar
            (stepWheel (stepDragKinetic (stepScrollTarget s i).1 i).1 i) i
            (forcedScrollBarWidth i)).offset.y
          (i.contentSize.y - i.innerHeight)) 0 := rfl
    rw [hproj]
    exact ⟨le_max_right _ _,
      max_le (le_trans (min_le_right _ _) (le_max_right _ _)) (le_max_left _ _)⟩
  · norm_num [Prepared.end', stepScrollTarget, stepDragKinetic, kineticStep,
      stepWheel, forcedScrollBarWidth, showScrollThisFrame, stepScrollBar,
      maxScrollBarWidthWithMargin, animateBoolTrue, Vec2.length, Vec2.zero,
      wheelScenarioState, wheelScenarioInput, max_def, min_def]

/-- The C5 scenario input: a pending scroll target at 400 with center ratio
1/2, clip height 200, content top 0. -/
noncomputable def targetScenarioInput : ScrollInput :=
  { wheelScenarioInput with
      scrollTarget := some 400
      scrollTargetCenterFactor := 1 / 2
      clipHeight := 200
      contentTop := 0
      containsMouse := false
      scrollDelta := ⟨0, 0⟩ }

/-- C5: if a `ScrollTarget` is pending when a scroll region ends, the region
sets `offset.y = target - content_top - clip_height * center_ratio` and clears
the target, so querying the frame state again in the same frame yields `none`
(only the innermost consuming region sees it); in particular target 400,
center ratio 1/2, clip height 200, content top 0 yields `offset.y = 300`. -/
theorem scroll_target_consumed (s : ScrollState) (i : ScrollInput) (t : ℝ)
    (h : i.scrollTarget = some t) :
    (stepScrollTarget s i).1.offset.y =
      t - i.contentTop - i.clipHeight * i.scrollTargetCenterFactor ∧
    (stepScrollTarget s i).2 = none ∧
    (Prepared.end' s i).scrollTargetAfter = none := by
  have hstep : stepScrollTarget s i =
      ({ s with offset := ⟨s.offset.x,
          t - i.contentTop - i.clipHeight * i.scrollTargetCenterFactor⟩ },
        none) := by
    unfold stepScrollTarget
    rw [h]
  refine ⟨by rw [hstep], by rw [hstep], ?_⟩
  show (stepScrollTarget s i).2 = none
  rw [hstep]

/-- Witness for C5 at the scenario: the offset becomes 300 and the target
reads back as `none` within the same frame. -/
theorem scroll_target_consumed_witness :
    targetScenarioInput.scrollTarget = some 400 ∧
    (stepScrollTarget wheelScenarioState targetScenarioInput).1.offset.y = 300 ∧
    (Prepared.end' wheelScenarioState targetScenarioInput).scrollTargetAfter =
      none := by
  have h := scroll_target_consumed wheelScenarioState targetScenarioInput 400 rfl
  refine ⟨rfl, ?_, h.2.2⟩
  rw [h.1]
  norm_num [targetScenarioInput, wheelScenarioInput]

/-- C7: at the end of a scroll region, if the scroll bar should be shown this
frame (content too small to fit, or `always_show_scroll`) but the animated
width computed at `begin` was still at or below zero, the width is forced to
the maximum width in the same frame instead of waiting a frame for the
animation. -/
theorem cold_start_scroll_bar_width (s : ScrollState) (i : ScrollInput)
    (hshow : i.contentSize.y > i.innerHeight ∨ i.alwaysShowScroll = true)
    (hw : i.currentScrollBarWidth ≤ 0) :
    (Prepared.end' s i).scrollBarWidth =
      maxScrollBarWidthWithMargin i.itemSpacingX := by
  show forcedScrollBarWidth i = _
  unfold forcedScrollBarWidth
  rw [if_pos ⟨hshow, hw⟩]
  simp [animateBoolTrue]

/-- The C7 witness input: too-small content with a zero animated width. -/
noncomputable def coldStartInput : ScrollInput :=
  { wheelScenarioInput with currentScrollBarWidth := 0 }

/-- Witness for C7: content 500 over inner 200 with width 0 at begin ends the
frame at the maximum scroll-bar width. -/
theorem cold_start_scroll_bar_width_witness :
    (coldStartInput.contentSize.y > coldStartInput.innerHeight ∨
      coldStartInput.alwaysShowScroll = true) ∧
    coldStartInput.currentScrollBarWidth ≤ 0 ∧
    (Prepared.end' wheelScenarioState coldStartInput).scrollBarWidth =
      maxScrollBarWidthWithMargin coldStartInput.itemSpacingX := by
  have h1 : coldStartInput.contentSize.y > coldStartInput.innerHeight := by
    norm_num [coldStartInput, wheelScenarioInput]
  have h2 : coldStartInput.currentScrollBarWidth ≤ 0 := by
    norm_num [coldStartInput, wheelScenarioInput]
  exact ⟨Or.inl h1, h2,
    cold_start_scroll_bar_width wheelScenarioState coldStartInput (Or.inl h1) h2⟩

/-- The C8 input: zero-height content, wheel delta 50, pointer over the area. -/
noncomputable def zeroHeightInput : ScrollInput :=
  { wheelScenarioInput with contentSize := ⟨100, 0⟩ }

/-- Counterexample to C8 as stated: with zero-height content the too-small
gate is off, yet the wheel block is not inside that gate and still applies the
wheel delta to `offset.y` — starting from offset 0 with wheel `delta.y = 50`,
the offset right after the wheel block of `Prepared::end` is -50, not the
unchanged 0 the claim's "wheel path is skipped structurally" requires. -/
theorem wheel_not_gated_counterexample :
    ¬ (zeroHeightInput.contentSize.y > zeroHeightInput.innerHeight) ∧
    (stepWheel (stepDragKinetic
        (stepScrollTarget wheelScenarioState zeroHeightInput).1
        zeroHeightInput).1 zeroHeightInput).offset.y = -50 ∧
    ((-50 : ℝ) ≠ 0) := by
  refine ⟨by norm_num [zeroHeightInput, wheelScenarioInput], ?_, by norm_num⟩
  norm_num [stepScrollTarget, stepDragKinetic, stepWheel, zeroHeightInput,
    wheelScenarioInput, wheelScenarioState]

/-- C8 amended: for a scroll region whose content has zero height, the drag
and kinetic paths are skipped structurally by the too-small gate; the wheel
path is not gated and may move `offset.y` transiently, but the final clamps of
`end` force the persisted offset back to zero — so the persisted offset is
zero after `end` regardless of pointer position and wheel input. -/
theorem zero_height_persisted_offset_zero (s : ScrollState) (i : ScrollInput)
    (hzero : i.contentSize.y = 0) (hinner : 0 ≤ i.innerHeight) :
    (¬ i.contentSize.y > i.innerHeight) ∧
    stepDragKinetic s i = (s, false) ∧
    (Prepared.end' s i).state.offset.y = 0 := by
  have hgate : ¬ i.contentSize.y > i.innerHeight := by
    rw [hzero]
    exact not_lt.mpr hinner
  refine ⟨hgate, ?_, ?_⟩
  · unfold stepDragKinetic
    rw [if_neg hgate]
  · have hproj : (Prepared.end' s i).state.offset.y =
        max (min (stepScrollBar
            (stepWheel (stepDragKinetic (stepScrollTarget s i).1 i).1 i) i
            (forcedScrollBarWidth i)).offset.y
          (i.contentSize.y - i.innerHeight)) 0 := rfl
    rw [hproj, hzero]
    exact max_eq_right (le_trans (min_le_right _ _) (by linarith))

/-- Witness for the amended C8 at the concrete zero-height input. -/
theorem zero_height_persisted_offset_zero_witness :
    zeroHeightInput.contentSize.y = 0 ∧
    (0 : ℝ) ≤ zeroHeightInput.innerHeight ∧
    (Prepared.end' wheelScenarioState zeroHeightInput).state.offset.y = 0 := by
  have h1 : zeroHeightInput.contentSize.y = 0 := by
    norm_num [zeroHeightInput, wheelScenarioInput]
  have h2 : (0 : ℝ) ≤ zeroHeightInput.innerHeight := by
    norm_num [zeroHeightInput, wheelScenarioInput]
  exact ⟨h1, h2,
    (zero_height_persisted_offset_zero wheelScenarioState zeroHeightInput
      h1 h2).2.2⟩

/-- Velocity magnitudes are non-negative. -/
theorem Vec2.length_nonneg (v : Vec2) : 0 ≤ v.length :=
  Real.sqrt_nonneg _

/-- The zero velocity has zero magnitude. -/
theorem Vec2.zero_length : Vec2.zero.length = 0 := by
  norm_num [Vec2.zero, Vec2.length]

/-- The stopping arm of the kinetic step. -/
theorem kineticStep_stop {vel : Vec2} (offsetY dt : ℝ)
    (h : 1000 * dt > vel.length ∨ vel.length < 20) :
    kineticStep vel offsetY dt = (Vec2.zero, offsetY, false) := by
  simp only [kineticStep]
  rw [if_pos h]

/-- The decay arm of the kinetic step. -/
theorem kineticStep_go {vel : Vec2} (offsetY dt : ℝ)
    (h : ¬(1000 * dt > vel.length ∨ vel.length < 20)) :
    kineticStep vel offsetY dt =
      (Vec2.sub vel (Vec2.smul (1000 * dt) vel.normalized),
        offsetY - (Vec2.sub vel (Vec2.smul (1000 * dt) vel.normalized)).y * dt,
        true) := by
  simp only [kineticStep]
  rw [if_neg h]

/-- Subtracting `f * normalize(vel)` from `vel` shortens it by exactly `f`
(for `0 ≤ f ≤ |vel|`). -/
theorem length_sub_smul_normalized (vel : Vec2) (f : ℝ)
    (hpos : 0 < vel.length) (hfle : f ≤ vel.length) :
    (Vec2.sub vel (Vec2.smul f vel.normalized)).length = vel.length - f := by
  set L := vel.length with hL
  have hne : L ≠ 0 := ne_of_gt hpos
  have hx : vel.x - f * (vel.x / L) = vel.x * ((L - f) / L) := by
    field_simp
    ring
  have hy : vel.y - f * (vel.y / L) = vel.y * ((L - f) / L) := by
    field_simp
    ring
  show Real.sqrt ((vel.x - f * (vel.x / L)) ^ 2 +
      (vel.y - f * (vel.y / L)) ^ 2) = L - f
  rw [hx, hy]
  have hring : (vel.x * ((L - f) / L)) ^ 2 + (vel.y * ((L - f) / L)) ^ 2 =
      (vel.x ^ 2 + vel.y ^ 2) * ((L - f) / L) ^ 2 := by ring
  rw [hring, Real.sqrt_mul (by positivity),
    Real.sqrt_sq (div_nonneg (by linarith) hpos.le)]
  have hsq : Real.sqrt (vel.x ^ 2 + vel.y ^ 2) = L := hL.symm
  rw [hsq]
  field_simp

/-- One full kinetic frame on the (velocity, offset) pair. -/
noncomputable def kineticNext (dt : ℝ) (p : Vec2 × ℝ) : Vec2 × ℝ :=
  ((kineticStep p.1 p.2 dt).1, (kineticStep p.1 p.2 dt).2.1)

/-- `n` kinetic frames from a start, with no further input. -/
noncomputable def kineticIter (dt : ℝ) (p : Vec2 × ℝ) : ℕ → Vec2 × ℝ
  | 0 => p
  | n + 1 => kineticNext dt (kineticIter dt p n)

/-- A stopped velocity stays stopped (`|0| < 20` always takes the snap arm). -/
theorem kineticNext_fst_zero (dt : ℝ) (q : Vec2 × ℝ) (h : q.1 = Vec2.zero) :
    (kineticNext dt q).1 = Vec2.zero := by
  unfold kineticNext
  rw [kineticStep_stop q.2 dt (Or.inr (by rw [h, Vec2.zero_length]; norm_num))]

/-- Velocity under iterated kinetic frames is either already exactly zero or
has lost `1000 * dt` of magnitude per frame. -/
theorem kineticIter_length_bound (dt : ℝ) (p : Vec2 × ℝ) :
    ∀ n : ℕ, (kineticIter dt p n).1 = Vec2.zero ∨
      (kineticIter dt p n).1.length ≤ p.1.length - n * (1000 * dt) := by
  intro n
  induction n with
  | zero => right; simp [kineticIter]
  | succ n ih =>
      have hstep : kineticIter dt p (n + 1) = kineticNext dt (kineticIter dt p n) :=
        rfl
      rcases ih with h0 | hle
      · left
        rw [hstep]
        exact kineticNext_fst_zero dt _ h0
      · by_cases hc : 1000 * dt > (kineticIter dt p n).1.length ∨
            (kineticIter dt p n).1.length < 20
        · left
          rw [hstep]
          unfold kineticNext
          rw [kineticStep_stop _ _ hc]
        · right
          rw [hstep]
          unfold kineticNext
          rw [kineticStep_go _ _ hc]
          push_neg at hc
          obtain ⟨hfle, hge20⟩ := hc
          show (Vec2.sub _ (Vec2.smul _ _)).length ≤ _
          rw [length_sub_smul_normalized _ _
            (lt_of_lt_of_le (by norm_num) hge20) hfle]
          push_cast
          linarith

/-- C2: when content is too small to fit and the region is not actively
dragged, `Prepared::end` runs the kinetic step, which with elapsed time `dt`
computes `friction = 1000 * dt` and snaps the velocity to exactly zero when
`friction > |vel|` or `|vel| < 20`, and otherwise subtracts
`friction * normalize(vel)` from the velocity, moves `offset.y` by
`-vel.y * dt`, and requests a repaint; consequently, from any starting
velocity with no further input and fixed `dt > 0`, after enough frames the
velocity is exactly zero and remains zero for all later frames. -/
theorem kinetic_decay (v0 : Vec2) (off0 dt : ℝ) (hdt : 0 < dt) :
    (∀ (s : ScrollState) (j : ScrollInput), j.contentSize.y > j.innerHeight →
      j.dragActive = false →
      stepDragKinetic s j =
        ({ s with
            vel := (kineticStep s.vel s.offset.y j.dt).1
            offset := ⟨s.offset.x, (kineticStep s.vel s.offset.y j.dt).2.1⟩ },
          (kineticStep s.vel s.offset.y j.dt).2.2)) ∧
    (∀ (vel : Vec2) (offsetY : ℝ),
      (1000 * dt > vel.length ∨ vel.length < 20 →
        kineticStep vel offsetY dt = (Vec2.zero, offsetY, false)) ∧
      (¬(1000 * dt > vel.length ∨ vel.length < 20) →
        kineticStep vel offsetY dt =
          (Vec2.sub vel (Vec2.smul (1000 * dt) vel.normalized),
            offsetY - (Vec2.sub vel (Vec2.smul (1000 * dt) vel.normalized)).y * dt,
            true))) ∧
    ∃ N : ℕ, ∀ n, N ≤ n → (kineticIter dt (v0, off0) n).1 = Vec2.zero := by
  refine ⟨?_, ?_, ?_⟩
  · intro s j hgt hdrag
    unfold stepDragKinetic
    rw [if_pos hgt, if_neg (by simp [hdrag])]
  · intro vel offsetY
    exact ⟨kineticStep_stop offsetY dt, kineticStep_go offsetY dt⟩
  · have hf : (0 : ℝ) < 1000 * dt := by positivity
    obtain ⟨N, hN⟩ := exists_nat_gt (v0.length / (1000 * dt))
    refine ⟨N, fun n hn => ?_⟩
    rcases kineticIter_length_bound dt (v0, off0) n with h0 | hle
    · exact h0
    · exfalso
      have h1 : v0.length < N * (1000 * dt) := (div_lt_iff₀ hf).mp hN
      have h2 : (N : ℝ) * (1000 * dt) ≤ n * (1000 * dt) :=
        mul_le_mul_of_nonneg_right (Nat.cast_le.mpr hn) hf.le
      have h3 := (kineticIter dt (v0, off0) n).1.length_nonneg
      have h4 : (kineticIter dt (v0, off0) n).1.length ≤
          v0.length - n * (1000 * dt) := hle
      linarith

/-- Witness for C2 at `dt = 1`, starting velocity (3, 4): after finitely many
frames the velocity is exactly zero and stays zero. -/
theorem kinetic_decay_witness :
    (0 : ℝ) < 1 ∧
    ∃ N : ℕ, ∀ n, N ≤ n → (kineticIter 1 (⟨3, 4⟩, 0) n).1 = Vec2.zero :=
  ⟨by norm_num, (kinetic_decay ⟨3, 4⟩ 0 1 (by norm_num)).2.2⟩
